import Mathlib

/-!
Verification of the build-orchestration engine of `docker-pkg`
(`docker_pkg/builder.py`, `docker_pkg/image.py`), as a shallow embedding.

Conventions of the embedding:
* The Python `ImageFSM` objects become the `ImageFSM` structure below; the
  mutable `state` field becomes functional state passing.
* `DockerBuilder.all_images` (a Python `set` iterated in unspecified order)
  becomes a `List ImageFSM`; theorems quantify over the list, covering all
  iteration orders.  Python object identity is modelled by structural
  equality together with `Nodup` hypotheses where identity matters.
* Exceptions become `Except`; the unbounded recursion of `_add_deps` and
  `all_children` is given an explicit fuel parameter, where running out of
  fuel models the non-termination of the Python recursion (a CPython
  `RecursionError`).
* The external collaborators (docker daemon, registry probe, subprocesses,
  `fnmatch`) are modelled by boolean oracles passed in as parameters.
-/

/-- The five states of `ImageFSM` (`builder.py` lines 23-38). -/
inductive ImageState where
  | published
  | verified
  | built
  | to_build
  | error
deriving DecidableEq, Repr

/-- One `ImageFSM` instance: an image record with its identity, declared
dependencies (short names, from `image.depends`) and lifecycle state. -/
structure ImageFSM where
  short_name : String
  label : String
  depends : List String
  state : ImageState
deriving DecidableEq, Repr

/-- The slice of the configuration dictionary used by the builder.
`none` models a missing key or an explicit `None`. -/
structure Config where
  registry : Option String
  username : Option String
  password : Option String
deriving DecidableEq, Repr

/-- Python truthiness of an optional string (`None` and `""` are falsy),
as used by `all([username, password])` in `DockerBuilder.publish`. -/
def truthy : Option String → Bool
  | none => false
  | some s => !s.isEmpty

namespace ImageFSM

/-- Embedding of `ImageFSM.build` (`builder.py` lines 126-137).  The boolean `ok` is the
oracle for the underlying `DockerImage.build()` call.  An `Except.error`
models the raised `ValueError` (state unchanged); an `Except.ok` carries the
record after the transition. -/
def build (ok : Bool) (i : ImageFSM) : Except String ImageFSM :=
  if i.state = ImageState.built then Except.ok i
  else if i.state ≠ ImageState.to_build then
    Except.error ("Image " ++ i.label ++ " is already built or failed to build")
  else if ok then Except.ok { i with state := ImageState.built }
  else Except.ok { i with state := ImageState.error }

/-- Embedding of `ImageFSM.verify` (`builder.py` lines 139-152). -/
def verify (ok : Bool) (i : ImageFSM) : Except String ImageFSM :=
  if i.state = ImageState.verified then Except.ok i
  else if i.state ≠ ImageState.built then
    Except.error ("Image " ++ i.label ++ " cannot be verified as not built, or already published.")
  else if ok then Except.ok { i with state := ImageState.verified }
  else Except.ok { i with state := ImageState.error }

/-- Embedding of `ImageFSM.publish` (`builder.py` lines 154-163). -/
def publish (ok : Bool) (i : ImageFSM) : Except String ImageFSM :=
  if i.state ≠ ImageState.verified then
    Except.error ("Image " ++ i.label ++ " is not verified, cannot publish it!")
  else if ok then Except.ok { i with state := ImageState.published }
  else Except.ok { i with state := ImageState.error }

/-- Initial-state determination in `ImageFSM.__init__` (`builder.py` lines
56-77).  `exists_locally` is the oracle for `self.image.exists()`,
`is_published` the oracle for `self._is_published()`. -/
def initial_state (pull exists_locally is_published : Bool) : ImageState :=
  if pull then
    if is_published then ImageState.published
    else if exists_locally then ImageState.built
    else ImageState.to_build
  else
    if !exists_locally then ImageState.to_build
    else if is_published then ImageState.published
    else ImageState.built

/-- The duplicate-registration check at the end of `ImageFSM.__init__`
(`builder.py` lines 84-92): `_instances` is the list of registered short
names; a second registration of the same short name raises. -/
def register_instance (instances : List String) (short_name : String) :
    Except String (List String) :=
  if short_name ∈ instances then
    Except.error ("Trying to reinstantiate the FSM for image " ++ short_name)
  else Except.ok (instances ++ [short_name])

end ImageFSM

namespace DockerImage

/-- Character class `[\d\-\.]` of the `new_tag` regex (`image.py` line 295). -/
def version_char (c : Char) : Bool :=
  c.isDigit || c = '-' || c = '.'

/-- Numeric value of a digit string (the `int(seqnum)` of `image.py`). -/
def digits_to_nat (ds : List Char) : Nat :=
  ds.foldl (fun acc c => acc * 10 + (c.toNat - 48)) 0

/-- Matching of the optional suffix group `(-{identifier}(\d+))?` of the
`new_tag` regex against the rest of the version string: `some none` for the
empty suffix, `some (some n)` when the suffix is `-identifier` followed by
a non-empty run of digits, `none` when the rest does not match. -/
def suffix_match (identifier : List Char) : List Char → Option (Option Nat)
  | [] => some none
  | '-' :: rest =>
    if identifier.isPrefixOf rest then
      let ds := rest.drop identifier.length
      if ds ≠ [] ∧ ds.all Char.isDigit then some (some (digits_to_nat ds))
      else none
    else none
  | _ => none

/-- The anchored match of `^([\d\-\.]+?)(-{identifier}(\d+))?$`:
the non-greedy `+?` makes the engine try the shortest base first, so the
result is the shortest non-empty split whose head is all version characters
and whose tail matches the optional suffix group. -/
def scan_split (identifier : List Char) (acc : List Char) :
    List Char → Option (List Char × Option Nat)
  | [] => none
  | c :: rest =>
    if version_char c then
      match suffix_match identifier rest with
      | some seq => some (acc ++ [c], seq)
      | none => scan_split identifier (acc ++ [c]) rest
    else none

/-- Embedding of `DockerImage.new_tag` (`image.py` lines 290-306).  A `None` identifier
is normalised to `""` by the source before use. -/
def new_tag (identifier : String) (previous_version : String) : Except String String :=
  match scan_split identifier.data [] previous_version.data with
  | none => Except.error ("Was not able to match version " ++ previous_version)
  | some (base, seqnum) =>
    let patch_num := match seqnum with
      | none => 1
      | some n => n + 1
    Except.ok (String.mk base ++ "-" ++ identifier ++ Nat.repr patch_num)

end DockerImage

/-- Errors of the chain-construction algorithms.  `dep_loop` is the
`RuntimeError("Dependency loop detected for image ...")` of `_add_deps`;
`fuel_exhausted` models non-termination of the Python recursion (what
CPython turns into a `RecursionError` at its recursion limit). -/
inductive BuildErr where
  | dep_loop (short_name : String)
  | fuel_exhausted
deriving DecidableEq, Repr

namespace DockerBuilder

/-- Embedding of `DockerBuilder._img_from_name` (`builder.py` lines 391-396): the first
record of `all_images` whose short name matches. -/
def img_from_name (all_images : List ImageFSM) (name : String) : Option ImageFSM :=
  all_images.find? (fun img => img.short_name = name)

/-- Embedding of `DockerBuilder._matches_glob` (`builder.py` lines 244-248).  The glob
pattern together with `fnmatch.fnmatch` (Python standard library, external
to this repository) is modelled as an optional predicate on full labels;
`none` models `self.glob is None` and matches everything. -/
def matches_glob (glob : Option (String → Bool)) (img : ImageFSM) : Bool :=
  match glob with
  | none => true
  | some p => p img.label

mutual

/-- Embedding of `DockerBuilder._add_deps` (`builder.py` lines 320-339), with the
mutable `self._build_chain` passed and returned explicitly and an explicit
fuel bound on the recursion depth. -/
def add_deps (all_images : List ImageFSM) :
    Nat → ImageFSM → List ImageFSM → Except BuildErr (List ImageFSM)
  | 0, _, _ => Except.error BuildErr.fuel_exhausted
  | fuel + 1, img, chain =>
    if img ∈ chain then Except.ok chain
    else
      match add_deps_list all_images fuel img.depends chain with
      | Except.error e => Except.error e
      | Except.ok chain1 =>
        if img ∈ chain1 then Except.error (BuildErr.dep_loop img.short_name)
        else Except.ok (chain1 ++ [img])
termination_by fuel => (fuel, 0)

/-- The `for dep in img.image.depends` loop inside `_add_deps`: a missing
dependency, or one not in `to_build` state, is skipped (`builder.py` lines
325-334); otherwise the dependency is added recursively. -/
def add_deps_list (all_images : List ImageFSM) :
    Nat → List String → List ImageFSM → Except BuildErr (List ImageFSM)
  | _, [], chain => Except.ok chain
  | fuel, dep :: deps, chain =>
    match img_from_name all_images dep with
    | none => add_deps_list all_images fuel deps chain
    | some dep_img =>
      if dep_img.state = ImageState.to_build then
        match add_deps all_images fuel dep_img chain with
        | Except.error e => Except.error e
        | Except.ok chain1 => add_deps_list all_images fuel deps chain1
      else add_deps_list all_images fuel deps chain
termination_by fuel deps => (fuel, deps.length + 1)

end

/-- The `for img in self.images_in_state(...)` loop of the `build_chain`
property: process the pending to-build records in order, keeping only those
matching the selection glob. -/
def chain_loop (all_images : List ImageFSM) (glob : Option (String → Bool)) (fuel : Nat) :
    List ImageFSM → List ImageFSM → Except BuildErr (List ImageFSM)
  | [], chain => Except.ok chain
  | img :: rest, chain =>
    if matches_glob glob img then
      match add_deps all_images fuel img chain with
      | Except.error e => Except.error e
      | Except.ok chain1 => chain_loop all_images glob fuel rest chain1
    else chain_loop all_images glob fuel rest chain

/-- Embedding of `DockerBuilder.build_chain` (`builder.py` lines 299-306): reset the
chain, then add (with dependencies) every record in `to_build` state whose
label matches the selection glob. -/
def build_chain (glob : Option (String → Bool)) (all_images : List ImageFSM) (fuel : Nat) :
    Except BuildErr (List ImageFSM) :=
  chain_loop all_images glob fuel
    (all_images.filter (fun img => img.state = ImageState.to_build)) []

/-- The state recoloring done at the start of `DockerBuilder.prune_chain`
(`builder.py` lines 311-315): records matching the selection are forced to
`to_build`, non-matching `to_build` records are forced to `built`. -/
def recolor (glob : Option (String → Bool)) (img : ImageFSM) : ImageFSM :=
  if matches_glob glob img then { img with state := ImageState.to_build }
  else if img.state = ImageState.to_build then { img with state := ImageState.built }
  else img

/-- Embedding of `DockerBuilder.prune_chain` (`builder.py` lines 308-318): recolor all
records, compute the build chain, and reverse it. -/
def prune_chain (glob : Option (String → Bool)) (all_images : List ImageFSM) (fuel : Nat) :
    Except BuildErr (List ImageFSM) :=
  match build_chain glob (all_images.map (recolor glob)) fuel with
  | Except.error e => Except.error e
  | Except.ok chain => Except.ok chain.reverse

/-- The inner `for dep in img.image.depends` loop of
`DockerBuilder._build_dependencies` (`builder.py` lines 357-364): resolve
each declared dependency of `img`, raising when one is missing, and record
one `(dependency, dependent)` edge per resolved name (the `add_child`
call). -/
def dep_edges_for (all_images : List ImageFSM) (img : ImageFSM) :
    List String → List (ImageFSM × ImageFSM) → Except String (List (ImageFSM × ImageFSM))
  | [], edges => Except.ok edges
  | dep :: deps, edges =>
    match img_from_name all_images dep with
    | none =>
      Except.error ("Image " ++ dep ++ " (dependency of " ++ img.label ++ ") not found")
    | some dep_img => dep_edges_for all_images img deps (edges ++ [(dep_img, img)])

/-- The outer `for img in self.all_images` loop of `_build_dependencies`. -/
def build_dependencies_loop (all_images : List ImageFSM) :
    List ImageFSM → List (ImageFSM × ImageFSM) → Except String (List (ImageFSM × ImageFSM))
  | [], edges => Except.ok edges
  | img :: rest, edges =>
    match dep_edges_for all_images img img.depends edges with
    | Except.error e => Except.error e
    | Except.ok edges1 => build_dependencies_loop all_images rest edges1

/-- Embedding of `DockerBuilder._build_dependencies` (`builder.py` lines 355-364):
resolve every declared dependency of every record, raising when one is
missing; the result is the list of `(dependency, dependent)` edges along
which `add_child` was called. -/
def build_dependencies (all_images : List ImageFSM) :
    Except String (List (ImageFSM × ImageFSM)) :=
  build_dependencies_loop all_images all_images []

/-- The `children` sets populated by `_build_dependencies`, read off the
edge list. -/
def children_of (edges : List (ImageFSM × ImageFSM)) (img : ImageFSM) : List ImageFSM :=
  (edges.filter (fun e => e.1 = img)).map (fun e => e.2)

/-- Embedding of `ImageFSM.all_children` (`builder.py` lines 169-185): the record itself
plus, recursively, all children.  The source has no loop protection, hence
the fuel. -/
def all_children (edges : List (ImageFSM × ImageFSM)) : Nat → ImageFSM → List ImageFSM
  | 0, img => [img]
  | fuel + 1, img =>
    [img] ++ (children_of edges img).foldl
      (fun acc child => acc ++ all_children edges fuel child) []

/-- Embedding of `DockerBuilder.images_to_update` (`builder.py` lines 366-374): build the
dependency edges (fatal on a missing dependency), then collect all children
of every record matching the selection. -/
def images_to_update (glob : Option (String → Bool)) (all_images : List ImageFSM)
    (fuel : Nat) : Except String (List ImageFSM) :=
  match build_dependencies all_images with
  | Except.error e => Except.error e
  | Except.ok edges =>
    Except.ok (all_images.foldl
      (fun acc img =>
        if matches_glob glob img then acc ++ all_children edges fuel img else acc)
      [])

end DockerBuilder

namespace DockerBuilder

/-- Embedding of `DockerBuilder.__init__` (`builder.py` lines 206-213): the effective
pull flag is forced to `False` when no registry is configured, regardless
of the `pull` constructor argument. -/
def effective_pull (config : Config) (pull : Bool) : Bool :=
  if config.registry = none then false else pull

/-- Outcome for one record of the `img.verify()` call in the first loop of
`DockerBuilder.publish`: only records in `built` state are in
`images_in_state(STATE_BUILT)`, the rest are untouched.  `verify_ok` is
the oracle for `DockerImage.verify()`, keyed by short name. -/
def verify_pass (verify_ok : String → Bool) (img : ImageFSM) : ImageFSM :=
  if img.state = ImageState.built then
    if verify_ok img.short_name then { img with state := ImageState.verified }
    else { img with state := ImageState.error }
  else img

/-- Outcome for one record of the `img.publish()` call in the second loop of
`DockerBuilder.publish`. -/
def publish_pass (publish_ok : String → Bool) (img : ImageFSM) : ImageFSM :=
  if img.state = ImageState.verified then
    if publish_ok img.short_name then { img with state := ImageState.published }
    else { img with state := ImageState.error }
  else img

/-- Embedding of `DockerBuilder.publish` (`builder.py` lines 421-438), with the final
record states as first component and the yielded records (the records in
`verified` state after the first loop, each yielded right after its
`publish()` call) as second component.  Both gates (missing registry,
falsy username or password) return without touching any record. -/
def publish (config : Config) (verify_ok publish_ok : String → Bool)
    (all_images : List ImageFSM) : List ImageFSM × List ImageFSM :=
  if config.registry = none then (all_images, [])
  else if !(truthy config.username && truthy config.password) then (all_images, [])
  else
    let verified := all_images.map (verify_pass verify_ok)
    (verified.map (publish_pass publish_ok),
     verified.filter (fun img => img.state = ImageState.verified))

/-- The `pull_dependencies` call (`builder.py` lines 341-353) for one chain
record: every resolvable declared dependency in `published` state is pulled
(its label is appended to the pull log); a failed pull puts the record in
`error` state. -/
def pull_dependencies (pull_ok : String → Bool) (all_images : List ImageFSM)
    (img : ImageFSM) : ImageFSM × List String :=
  img.depends.foldl
    (fun (acc : ImageFSM × List String) dep =>
      match img_from_name all_images dep with
      | none => acc
      | some dep_img =>
        if dep_img.state = ImageState.published then
          if pull_ok dep_img.label then (acc.1, acc.2 ++ [dep_img.label])
          else ({ acc.1 with state := ImageState.error }, acc.2 ++ [dep_img.label])
        else acc)
    (img, [])

/-- Replace the state of the record named `name` (the effect of mutating a
shared `ImageFSM` object inside `all_images`). -/
def upd_state (all_images : List ImageFSM) (name : String) (st : ImageState) :
    List ImageFSM :=
  all_images.map (fun img => if img.short_name = name then { img with state := st } else img)

/-- The body of the `for img in self.build_chain` loop of
`DockerBuilder.build` (`builder.py` lines 406-419), threading the evolving
record states and accumulating the labels of all attempted pulls. -/
def build_loop (pull : Bool) (pull_ok build_ok verify_ok : String → Bool) :
    List ImageFSM → List String → List ImageFSM × List String
  | all_images, [] => (all_images, [])
  | all_images, name :: rest =>
    let cur := match img_from_name all_images name with
      | some img => img
      | none => { short_name := name, label := name, depends := [], state := ImageState.error }
    let pulled := if pull then pull_dependencies pull_ok all_images cur else (cur, [])
    let cur1 := pulled.1
    let cur2 :=
      if cur1.state = ImageState.to_build then
        if build_ok cur1.short_name then
          if verify_ok cur1.short_name then { cur1 with state := ImageState.verified }
          else { cur1 with state := ImageState.error }
        else { cur1 with state := ImageState.error }
      else cur1
    let next := build_loop pull pull_ok build_ok verify_ok
      (upd_state all_images name cur2.state) rest
    (next.1, pulled.2 ++ next.2)

/-- Embedding of `DockerBuilder.build` (`builder.py` lines 398-419): refresh the base
images when pulling is enabled, compute the build chain, then run the build
loop.  The second component of the result is the full pull log (base-image
refreshes followed by dependency pulls). -/
def build (config : Config) (pull_arg : Bool) (pull_ok build_ok verify_ok : String → Bool)
    (base_images : List String) (glob : Option (String → Bool))
    (all_images : List ImageFSM) (fuel : Nat) :
    Except BuildErr (List ImageFSM × List String) :=
  let pull := effective_pull config pull_arg
  let base_pulls := if pull then base_images else []
  match build_chain glob all_images fuel with
  | Except.error e => Except.error e
  | Except.ok chain =>
    let looped := build_loop pull pull_ok build_ok verify_ok all_images
      (chain.map (fun img => img.short_name))
    Except.ok (looped.1, base_pulls ++ looped.2)

end DockerBuilder

namespace DockerBuilder

/-- Relation stating that `a` depends on `b`: some declared dependency name of `a` resolves (via
`_img_from_name`) to `b`, and `b` is in `to_build` state — exactly the
dependencies `_add_deps` follows. -/
def dep_step (all_images : List ImageFSM) (a b : ImageFSM) : Prop :=
  b.state = ImageState.to_build ∧ ∃ d ∈ a.depends, img_from_name all_images d = some b

instance (all_images : List ImageFSM) (a b : ImageFSM) :
    Decidable (dep_step all_images a b) := by
  unfold dep_step; infer_instance

/-- Acyclicity of the dependency graph restricted to `to_build` records,
expressed by a rank function that strictly decreases along `dep_step`
edges; for a finite graph this is equivalent to the absence of cycles. -/
def rank_ok (all_images : List ImageFSM) (rank : ImageFSM → Nat) : Prop :=
  ∀ a ∈ all_images, ∀ b ∈ all_images,
    a.state = ImageState.to_build → dep_step all_images a b → rank b < rank a

instance (all_images : List ImageFSM) (rank : ImageFSM → Nat) :
    Decidable (rank_ok all_images rank) := by
  unfold rank_ok; infer_instance

/-- Meaning of `closed_from all_images seen c`: walking `c` left to right, every
`dep_step`-dependency of every element has already been seen (in `seen` or
earlier in `c`).  `closed_from [] c` is the dependency-first ordering
property of a build chain. -/
def closed_from (all_images : List ImageFSM) (seen : List ImageFSM) :
    List ImageFSM → Prop
  | [] => True
  | a :: rest =>
    (∀ b, dep_step all_images a b → b ∈ seen) ∧
    closed_from all_images (seen ++ [a]) rest

/-- A chain is dependency-first: the `to_build` dependencies of every
element appear strictly before it. -/
def chain_closed (all_images : List ImageFSM) (c : List ImageFSM) : Prop :=
  closed_from all_images [] c

/-- Induction package for `add_deps` under an acyclicity rank: with enough
fuel, starting from a duplicate-free dependency-first chain, `add_deps`
succeeds, only appends `to_build` records of rank at most that of the
argument,
ends with the argument in the chain, and preserves the invariants. -/
def AddDepsSpec (all_images : List ImageFSM) (rank : ImageFSM → Nat) (fuel : Nat) : Prop :=
  ∀ img chain, img ∈ all_images → img.state = ImageState.to_build → rank img < fuel →
    chain.Nodup → chain_closed all_images chain →
    ∃ added, add_deps all_images fuel img chain = Except.ok (chain ++ added) ∧
      img ∈ chain ++ added ∧
      (∀ x ∈ added, x ∈ all_images ∧ x.state = ImageState.to_build ∧ rank x ≤ rank img) ∧
      (chain ++ added).Nodup ∧ chain_closed all_images (chain ++ added)

/-- Induction package for the dependency loop `add_deps_list`. -/
def AddDepsListSpec (all_images : List ImageFSM) (rank : ImageFSM → Nat) (fuel : Nat) : Prop :=
  ∀ ds chain,
    (∀ d ∈ ds, ∀ b, img_from_name all_images d = some b →
      b.state = ImageState.to_build → rank b < fuel) →
    chain.Nodup → chain_closed all_images chain →
    ∃ added, add_deps_list all_images fuel ds chain = Except.ok (chain ++ added) ∧
      (∀ d ∈ ds, ∀ b, img_from_name all_images d = some b →
        b.state = ImageState.to_build → b ∈ chain ++ added) ∧
      (∀ x ∈ added, x ∈ all_images ∧ x.state = ImageState.to_build ∧
        ∃ b, (∃ d ∈ ds, img_from_name all_images d = some b) ∧
          b.state = ImageState.to_build ∧ rank x ≤ rank b) ∧
      (chain ++ added).Nodup ∧ chain_closed all_images (chain ++ added)

end DockerBuilder

/-- Concrete two-image dependency cycle: `a` depends on `b`, `b` on `a`. -/
def cycle_a : ImageFSM :=
  { short_name := "a", label := "a:1.0", depends := ["b"], state := ImageState.to_build }

def cycle_b : ImageFSM :=
  { short_name := "b", label := "b:1.0", depends := ["a"], state := ImageState.to_build }

def cycle_images : List ImageFSM := [cycle_a, cycle_b]

/-- Concrete acyclic registry for the C1 witness: `b` depends on `a`. -/
def wit_a : ImageFSM :=
  { short_name := "a", label := "a:1.0", depends := [], state := ImageState.to_build }

def wit_b : ImageFSM :=
  { short_name := "b", label := "b:1.0", depends := ["a"], state := ImageState.to_build }

def wit_rank : ImageFSM → Nat := fun i => if i.short_name = "a" then 0 else 1

/-- Concrete registry for the C7 witness: one image whose only declared
dependency does not resolve to any scanned record. -/
def wit_c7 : ImageFSM :=
  { short_name := "b", label := "b:1.0", depends := ["a"], state := ImageState.to_build }


namespace DockerBuilder

lemma closed_from_append (all_images : List ImageFSM) (seen c1 c2 : List ImageFSM) :
    closed_from all_images seen (c1 ++ c2) ↔
      closed_from all_images seen c1 ∧ closed_from all_images (seen ++ c1) c2 := by
  induction c1 generalizing seen with
  | nil => simp [closed_from]
  | cons a rest ih =>
    simp only [List.cons_append, closed_from]
    rw [show rest.append c2 = rest ++ c2 from rfl, ih (seen ++ [a])]
    simp [List.append_assoc, and_assoc]

lemma chain_closed_concat (all_images : List ImageFSM) (c : List ImageFSM) (a : ImageFSM)
    (hc : chain_closed all_images c)
    (ha : ∀ b, dep_step all_images a b → b ∈ c) :
    chain_closed all_images (c ++ [a]) := by
  unfold chain_closed at *
  rw [closed_from_append]
  exact ⟨hc, by simpa [closed_from] using ha⟩

lemma chain_closed_before (all_images : List ImageFSM) (c l1 l2 : List ImageFSM)
    (a b : ImageFSM) (hc : chain_closed all_images c) (hsplit : c = l1 ++ a :: l2)
    (hstep : dep_step all_images a b) : b ∈ l1 := by
  subst hsplit
  unfold chain_closed at hc
  rw [closed_from_append] at hc
  obtain ⟨-, h2⟩ := hc
  simp only [closed_from, List.nil_append] at h2
  exact h2.1 b hstep

end DockerBuilder

namespace DockerBuilder

lemma add_deps_list_spec_of (all_images : List ImageFSM) (rank : ImageFSM → Nat) (fuel : Nat)
    (h : AddDepsSpec all_images rank fuel) : AddDepsListSpec all_images rank fuel := by
  intro ds
  induction ds with
  | nil =>
    intro chain _ hnd hcc
    refine ⟨[], ?_, ?_, ?_, ?_, ?_⟩ <;> simp [add_deps_list, hnd, hcc]
  | cons d ds ih =>
    intro chain hf hnd hcc
    rw [add_deps_list]
    cases hfind : img_from_name all_images d with
    | none =>
      obtain ⟨added, heq, hmem, hadd, hnd1, hcc1⟩ :=
        ih chain (fun d' hd' => hf d' (List.mem_cons_of_mem d hd')) hnd hcc
      refine ⟨added, heq, ?_, ?_, hnd1, hcc1⟩
      · intro d' hd' b hfind' hb
        rcases List.mem_cons.mp hd' with rfl | hd'
        · rw [hfind] at hfind'; exact absurd hfind' (by simp)
        · exact hmem d' hd' b hfind' hb
      · intro x hx
        obtain ⟨h1, h2, b, ⟨d', hd', hfind'⟩, hb, hle⟩ := hadd x hx
        exact ⟨h1, h2, b, ⟨d', List.mem_cons_of_mem d hd', hfind'⟩, hb, hle⟩
    | some dep_img =>
      dsimp only
      by_cases hst : dep_img.state = ImageState.to_build
      · rw [if_pos hst]
        have hdepmem : dep_img ∈ all_images := List.mem_of_find?_eq_some hfind
        have hrank : rank dep_img < fuel := hf d (List.mem_cons_self d ds) dep_img hfind hst
        obtain ⟨added1, heq1, hmem1, hadd1, hnd1, hcc1⟩ :=
          h dep_img chain hdepmem hst hrank hnd hcc
        rw [heq1]
        obtain ⟨added2, heq2, hmem2, hadd2, hnd2, hcc2⟩ :=
          ih (chain ++ added1) (fun d' hd' => hf d' (List.mem_cons_of_mem d hd')) hnd1 hcc1
        rw [List.append_assoc] at heq2 hnd2 hcc2
        refine ⟨added1 ++ added2, heq2, ?_, ?_, hnd2, hcc2⟩
        · intro d' hd' b hfind' hb
          rcases List.mem_cons.mp hd' with rfl | hd'
          · rw [hfind] at hfind'
            injection hfind' with hb'
            subst hb'
            rw [← List.append_assoc]
            exact List.mem_append_left _ hmem1
          · have := hmem2 d' hd' b hfind' hb
            rwa [List.append_assoc] at this
        · intro x hx
          rcases List.mem_append.mp hx with hx1 | hx2
          · obtain ⟨h1, h2, hle⟩ := hadd1 x hx1
            exact ⟨h1, h2, dep_img, ⟨d, List.mem_cons_self d ds, hfind⟩, hst, hle⟩
          · obtain ⟨h1, h2, b, ⟨d', hd', hfind'⟩, hb, hle⟩ := hadd2 x hx2
            exact ⟨h1, h2, b, ⟨d', List.mem_cons_of_mem d hd', hfind'⟩, hb, hle⟩
      · rw [if_neg hst]
        obtain ⟨added, heq, hmem, hadd, hnd1, hcc1⟩ :=
          ih chain (fun d' hd' => hf d' (List.mem_cons_of_mem d hd')) hnd hcc
        refine ⟨added, heq, ?_, ?_, hnd1, hcc1⟩
        · intro d' hd' b hfind' hb
          rcases List.mem_cons.mp hd' with rfl | hd'
          · rw [hfind] at hfind'
            injection hfind' with hb'
            subst hb'
            exact absurd hb hst
          · exact hmem d' hd' b hfind' hb
        · intro x hx
          obtain ⟨h1, h2, b, ⟨d', hd', hfind'⟩, hb, hle⟩ := hadd x hx
          exact ⟨h1, h2, b, ⟨d', List.mem_cons_of_mem d hd', hfind'⟩, hb, hle⟩

end DockerBuilder

namespace DockerBuilder

lemma add_deps_spec_all (all_images : List ImageFSM) (rank : ImageFSM → Nat)
    (hr : rank_ok all_images rank) : ∀ fuel, AddDepsSpec all_images rank fuel := by
  intro fuel
  induction fuel with
  | zero => intro img chain _ _ hlt; omega
  | succ f ih =>
    have hlist := add_deps_list_spec_of all_images rank f ih
    intro img chain himg hst hlt hnd hcc
    rw [add_deps]
    by_cases hmem : img ∈ chain
    · exact ⟨[], by simp [hmem], by simpa using hmem, by simp, by simpa, by simpa⟩
    · rw [if_neg hmem]
      have hstep : ∀ b, dep_step all_images img b → rank b < rank img := by
        intro b hb
        obtain ⟨hbst, d, hd, hfind⟩ := hb
        exact hr img himg b (List.mem_of_find?_eq_some hfind) hst ⟨hbst, d, hd, hfind⟩
      obtain ⟨added, heq, hmemd, hadd, hnd1, hcc1⟩ :=
        hlist img.depends chain
          (fun d hd b hfind hb => by
            have : rank b < rank img := hstep b ⟨hb, d, hd, hfind⟩
            omega)
          hnd hcc
      have himgadded : img ∉ added := by
        intro hx
        obtain ⟨-, -, b, ⟨d, hd, hfind⟩, hb, hle⟩ := hadd img hx
        have : rank b < rank img := hstep b ⟨hb, d, hd, hfind⟩
        omega
      have himgchain1 : img ∉ chain ++ added := by
        simp only [List.mem_append]
        rintro (h1 | h2)
        · exact hmem h1
        · exact himgadded h2
      rw [heq]
      dsimp only
      rw [if_neg himgchain1]
      refine ⟨added ++ [img], by rw [List.append_assoc], by simp, ?_, ?_, ?_⟩
      · intro x hx
        rcases List.mem_append.mp hx with hx1 | hx2
        · obtain ⟨h1, h2, b, ⟨d, hd, hfind⟩, hb, hle⟩ := hadd x hx1
          have : rank b < rank img := hstep b ⟨hb, d, hd, hfind⟩
          exact ⟨h1, h2, by omega⟩
        · simp only [List.mem_singleton] at hx2
          subst hx2
          exact ⟨himg, hst, le_refl _⟩
      · rw [← List.append_assoc]
        refine List.Nodup.append hnd1 (List.nodup_singleton img) ?_
        intro a ha hb
        simp only [List.mem_singleton] at hb
        subst hb
        exact himgchain1 ha
      · rw [← List.append_assoc]
        refine chain_closed_concat all_images (chain ++ added) img hcc1 ?_
        rintro b ⟨hbst, d, hd, hfind⟩
        exact hmemd d hd b hfind hbst

end DockerBuilder

namespace DockerBuilder

lemma chain_loop_spec (all_images : List ImageFSM) (rank : ImageFSM → Nat)
    (glob : Option (String → Bool)) (fuel : Nat)
    (hr : rank_ok all_images rank) (hfuel : ∀ i ∈ all_images, rank i < fuel) :
    ∀ pending chain,
      (∀ i ∈ pending, i ∈ all_images ∧ i.state = ImageState.to_build) →
      chain.Nodup → chain_closed all_images chain →
      ∃ added, chain_loop all_images glob fuel pending chain = Except.ok (chain ++ added) ∧
        (∀ i ∈ pending, matches_glob glob i = true → i ∈ chain ++ added) ∧
        (∀ x ∈ added, x ∈ all_images ∧ x.state = ImageState.to_build) ∧
        (chain ++ added).Nodup ∧ chain_closed all_images (chain ++ added) := by
  intro pending
  induction pending with
  | nil =>
    intro chain _ hnd hcc
    exact ⟨[], by simp [chain_loop], by simp, by simp, by simpa, by simpa⟩
  | cons i rest ih =>
    intro chain hp hnd hcc
    rw [chain_loop]
    by_cases hm : matches_glob glob i
    · rw [if_pos hm]
      obtain ⟨hi_mem, hi_st⟩ := hp i (List.mem_cons_self i rest)
      obtain ⟨Δ1, heq1, himem, hΔ1, hnd1, hcc1⟩ :=
        add_deps_spec_all all_images rank hr fuel i chain hi_mem hi_st (hfuel i hi_mem) hnd hcc
      rw [heq1]
      obtain ⟨Δ2, heq2, hmem2, hΔ2, hnd2, hcc2⟩ :=
        ih (chain ++ Δ1) (fun j hj => hp j (List.mem_cons_of_mem i hj)) hnd1 hcc1
      rw [List.append_assoc] at heq2 hnd2 hcc2
      refine ⟨Δ1 ++ Δ2, heq2, ?_, ?_, hnd2, hcc2⟩
      · intro j hj hjm
        rcases List.mem_cons.mp hj with rfl | hj
        · rw [← List.append_assoc]
          exact List.mem_append_left _ himem
        · have := hmem2 j hj hjm
          rwa [List.append_assoc] at this
      · intro x hx
        rcases List.mem_append.mp hx with hx1 | hx2
        · obtain ⟨h1, h2, -⟩ := hΔ1 x hx1
          exact ⟨h1, h2⟩
        · exact hΔ2 x hx2
    · rw [if_neg hm]
      obtain ⟨Δ, heq, hmem, hΔ, hnd1, hcc1⟩ :=
        ih chain (fun j hj => hp j (List.mem_cons_of_mem i hj)) hnd hcc
      refine ⟨Δ, heq, ?_, hΔ, hnd1, hcc1⟩
      intro j hj hjm
      rcases List.mem_cons.mp hj with rfl | hj
      · exact absurd hjm (by simpa using hm)
      · exact hmem j hj hjm

lemma build_chain_spec (all_images : List ImageFSM) (glob : Option (String → Bool))
    (rank : ImageFSM → Nat) (hr : rank_ok all_images rank) :
    ∃ fuel c, build_chain glob all_images fuel = Except.ok c ∧
      (∀ i ∈ all_images, i.state = ImageState.to_build →
        matches_glob glob i = true → i ∈ c) ∧
      (∀ x ∈ c, x ∈ all_images ∧ x.state = ImageState.to_build) ∧
      c.Nodup ∧ chain_closed all_images c := by
  refine ⟨(all_images.map rank).sum + 1, ?_⟩
  have hfuel : ∀ i ∈ all_images, rank i < (all_images.map rank).sum + 1 := by
    intro i hi
    have : rank i ≤ (all_images.map rank).sum :=
      List.le_sum_of_mem (List.mem_map_of_mem rank hi)
    omega
  obtain ⟨added, heq, hmem, hadd, hnd1, hcc1⟩ :=
    chain_loop_spec all_images rank glob ((all_images.map rank).sum + 1) hr hfuel
      (all_images.filter (fun img => img.state = ImageState.to_build)) []
      (fun i hi => by
        rw [List.mem_filter] at hi
        exact ⟨hi.1, by simpa using hi.2⟩)
      List.nodup_nil trivial
  refine ⟨[] ++ added, ?_, ?_, ?_, hnd1, hcc1⟩
  · exact heq
  · intro i hi hst hm
    exact hmem i (List.mem_filter.mpr ⟨hi, by simpa using hst⟩) hm
  · intro x hx
    exact hadd x (by simpa using hx)

end DockerBuilder

namespace DockerBuilder

lemma cycle_no_termination : ∀ n,
    add_deps cycle_images n cycle_a [] = Except.error BuildErr.fuel_exhausted ∧
    add_deps cycle_images n cycle_b [] = Except.error BuildErr.fuel_exhausted := by
  intro n
  induction n with
  | zero => exact ⟨by rw [add_deps], by rw [add_deps]⟩
  | succ n ih =>
    refine ⟨?_, ?_⟩
    · rw [add_deps, if_neg (by simp), show cycle_a.depends = ["b"] from rfl, add_deps_list,
        show img_from_name cycle_images "b" = some cycle_b from rfl]
      dsimp only
      rw [if_pos (show cycle_b.state = ImageState.to_build from rfl), ih.2]
    · rw [add_deps, if_neg (by simp), show cycle_b.depends = ["a"] from rfl, add_deps_list,
        show img_from_name cycle_images "a" = some cycle_a from rfl]
      dsimp only
      rw [if_pos (show cycle_a.state = ImageState.to_build from rfl), ih.1]

end DockerBuilder

/-- C2 (code bug): on a two-image dependency cycle the build-chain
computation never terminates (modelled by fuel exhaustion at every fuel);
in particular the `Dependency loop detected` error is never raised. -/
theorem claim_C2_cycle_diverges : ∀ fuel,
    DockerBuilder.build_chain none cycle_images fuel =
      Except.error BuildErr.fuel_exhausted := by
  intro fuel
  unfold DockerBuilder.build_chain
  rw [show cycle_images.filter (fun img => img.state = ImageState.to_build) =
        [cycle_a, cycle_b] from rfl]
  rw [DockerBuilder.chain_loop,
    if_pos (show DockerBuilder.matches_glob none cycle_a = true from rfl),
    (DockerBuilder.cycle_no_termination fuel).1]

/-- C1: for every record set whose `to_build`-restricted dependency graph
is acyclic (witnessed by a rank function decreasing along dependency
edges), `build_chain` succeeds, its result contains every `to_build`
record matching the selection glob exactly once, and whenever a record
`a` in the chain depends on a `to_build` record `b`, `b` occurs strictly
before (any occurrence of) `a`. -/
theorem claim_C1_build_chain_topological_order
    (all_images : List ImageFSM) (glob : Option (String → Bool)) (rank : ImageFSM → Nat)
    (hr : DockerBuilder.rank_ok all_images rank) (hnd : all_images.Nodup) :
    ∃ fuel c, DockerBuilder.build_chain glob all_images fuel = Except.ok c ∧
      (∀ i ∈ all_images, i.state = ImageState.to_build →
        DockerBuilder.matches_glob glob i = true → c.count i = 1) ∧
      (∀ l1 a l2 b, c = l1 ++ a :: l2 → DockerBuilder.dep_step all_images a b → b ∈ l1) := by
  obtain ⟨fuel, c, heq, hmem, hall, hndc, hcc⟩ :=
    DockerBuilder.build_chain_spec all_images glob rank hr
  refine ⟨fuel, c, heq, ?_, ?_⟩
  · intro i hi hst hm
    exact List.count_eq_one_of_mem hndc (hmem i hi hst hm)
  · intro l1 a l2 b hsplit hstep
    exact DockerBuilder.chain_closed_before all_images c l1 l2 a b hcc hsplit hstep

/-- C3: transition table of the `ImageFSM` record state machine —
`build` is a no-op from `built`, legal only from `to_build` (success to
`built`, failure to `error`); `verify` is a no-op from `verified`, legal
only from `built`; `publish` is legal only from `verified`; every other
state raises (an `Except.error`, leaving the record unchanged), distinct
from an operation failure which lands in state `error`. -/
theorem claim_C3_fsm_transitions (ok : Bool) (i : ImageFSM) :
    (i.state = ImageState.built → ImageFSM.build ok i = Except.ok i) ∧
    (i.state ≠ ImageState.built → i.state ≠ ImageState.to_build →
      ∃ msg, ImageFSM.build ok i = Except.error msg) ∧
    (i.state = ImageState.to_build → ImageFSM.build ok i =
      Except.ok { i with state := if ok then ImageState.built else ImageState.error }) ∧
    (i.state = ImageState.verified → ImageFSM.verify ok i = Except.ok i) ∧
    (i.state ≠ ImageState.verified → i.state ≠ ImageState.built →
      ∃ msg, ImageFSM.verify ok i = Except.error msg) ∧
    (i.state = ImageState.built → ImageFSM.verify ok i =
      Except.ok { i with state := if ok then ImageState.verified else ImageState.error }) ∧
    (i.state ≠ ImageState.verified → ∃ msg, ImageFSM.publish ok i = Except.error msg) ∧
    (i.state = ImageState.verified → ImageFSM.publish ok i =
      Except.ok { i with state := if ok then ImageState.published else ImageState.error }) := by
  cases hs : i.state <;> cases ok <;>
    simp [ImageFSM.build, ImageFSM.verify, ImageFSM.publish, hs]

/-- Witness for C3: a concrete successful build from `to_build`. -/
theorem claim_C3_witness :
    ImageFSM.build true
        { short_name := "x", label := "x:1", depends := [], state := ImageState.to_build } =
      Except.ok { short_name := "x", label := "x:1", depends := [], state := ImageState.built } := by
  have h := claim_C3_fsm_transitions true
    { short_name := "x", label := "x:1", depends := [], state := ImageState.to_build }
  simpa using h.2.2.1 rfl

/-- C4 counterexample: with pull disabled, a locally-absent image that the
registry probe reports as published is put in `to_build`, not `published`
as the claim states. -/
theorem claim_C4_counterexample :
    ImageFSM.initial_state false false true = ImageState.to_build ∧
      ImageState.to_build ≠ ImageState.published := by decide

/-- C4 amended: with pull disabled, local existence is checked first and a
locally-absent image is always `to_build` (the registry probe is
irrelevant); a locally-present image is `published` if the probe finds it,
else `built`. -/
theorem claim_C4_amended (exists_locally is_published : Bool) :
    (ImageFSM.initial_state false exists_locally is_published = ImageState.built ↔
      exists_locally = true ∧ is_published = false) ∧
    (ImageFSM.initial_state false exists_locally is_published = ImageState.published ↔
      exists_locally = true ∧ is_published = true) ∧
    (ImageFSM.initial_state false exists_locally is_published = ImageState.to_build ↔
      exists_locally = false) := by
  cases exists_locally <;> cases is_published <;> decide

/-- C8: the prune chain is exactly the reverse of the build chain computed
over the recolored registry, where recoloring forces records matching the
selection to `to_build` and non-matching `to_build` records to `built`,
leaving everything else unchanged. -/
theorem claim_C8_prune_chain_reversed (glob : Option (String → Bool))
    (all_images : List ImageFSM) (fuel : Nat) :
    DockerBuilder.prune_chain glob all_images fuel =
      (DockerBuilder.build_chain glob (all_images.map (DockerBuilder.recolor glob)) fuel).map
        List.reverse ∧
    ∀ i : ImageFSM,
      (DockerBuilder.recolor glob i).short_name = i.short_name ∧
      (DockerBuilder.recolor glob i).label = i.label ∧
      (DockerBuilder.recolor glob i).depends = i.depends ∧
      (DockerBuilder.recolor glob i).state =
        (if DockerBuilder.matches_glob glob i then ImageState.to_build
         else if i.state = ImageState.to_build then ImageState.built else i.state) := by
  constructor
  · cases h : DockerBuilder.build_chain glob (all_images.map (DockerBuilder.recolor glob)) fuel <;>
      simp [DockerBuilder.prune_chain, h, Except.map]
  · intro i
    unfold DockerBuilder.recolor
    by_cases hm : DockerBuilder.matches_glob glob i <;>
      by_cases hs : i.state = ImageState.to_build <;> simp [hm, hs]

/-- C9: a successful registration appends the short name; re-registering
the same short name afterwards raises, and registration preserves
duplicate-freeness of the registered names. -/
theorem claim_C9_unique_registration (instances out : List String) (name : String)
    (h : ImageFSM.register_instance instances name = Except.ok out) :
    ImageFSM.register_instance out name =
      Except.error ("Trying to reinstantiate the FSM for image " ++ name) ∧
    (instances.Nodup → out.Nodup) := by
  unfold ImageFSM.register_instance at h ⊢
  by_cases hmem : name ∈ instances
  · simp [hmem] at h
  · simp only [if_neg hmem, Except.ok.injEq] at h
    subst h
    constructor
    · rw [if_pos (by simp)]
    · intro hnd
      simp [List.nodup_append, hnd, hmem]

/-- Witness for C9: registering `a` into an empty registry and then again. -/
theorem claim_C9_witness :
    ImageFSM.register_instance ["a"] "a" =
      Except.error ("Trying to reinstantiate the FSM for image " ++ "a") ∧
    (["a"] : List String).Nodup :=
  ⟨(claim_C9_unique_registration [] ["a"] "a" rfl).1,
   (claim_C9_unique_registration [] ["a"] "a" rfl).2 List.nodup_nil⟩

/-- Witness for C1: the two-image acyclic registry, with the rank function
and duplicate-freeness discharged by computation. -/
theorem claim_C1_witness :
    DockerBuilder.rank_ok [wit_a, wit_b] wit_rank ∧ ([wit_a, wit_b] : List ImageFSM).Nodup ∧
    (∃ fuel c, DockerBuilder.build_chain none [wit_a, wit_b] fuel = Except.ok c ∧
      (∀ i ∈ [wit_a, wit_b], i.state = ImageState.to_build →
        DockerBuilder.matches_glob none i = true → c.count i = 1) ∧
      (∀ l1 a l2 b, c = l1 ++ a :: l2 → DockerBuilder.dep_step [wit_a, wit_b] a b → b ∈ l1)) :=
  ⟨by decide, by decide,
    claim_C1_build_chain_topological_order [wit_a, wit_b] none wit_rank (by decide) (by decide)⟩

/-- C6: the four specified `new_tag` cases — security-update suffixing of a
native version, increment of an existing suffix, plain increment with the
empty identifier, and rejection of a tilde version. -/
theorem claim_C6_new_tag_cases :
    DockerImage.new_tag "s" "0.1.2" = Except.ok "0.1.2-s1" ∧
    DockerImage.new_tag "s" "0.1.2-1-s8" = Except.ok "0.1.2-1-s9" ∧
    DockerImage.new_tag "" "0.1.2-1" = Except.ok "0.1.2-2" ∧
    DockerImage.new_tag "s" "0.1.2-1~wmf2" =
      Except.error "Was not able to match version 0.1.2-1~wmf2" :=
  ⟨rfl, rfl, rfl, rfl⟩

namespace DockerBuilder

lemma dep_edges_for_ok (all_images : List ImageFSM) (img : ImageFSM) :
    ∀ deps edges, (∀ d ∈ deps, ∃ b, img_from_name all_images d = some b) →
      ∃ out, dep_edges_for all_images img deps edges = Except.ok out := by
  intro deps
  induction deps with
  | nil => intro edges _; exact ⟨edges, rfl⟩
  | cons d ds ih =>
    intro edges hall
    obtain ⟨b, hb⟩ := hall d (List.mem_cons_self d ds)
    rw [dep_edges_for, hb]
    exact ih _ (fun d' hd' => hall d' (List.mem_cons_of_mem d hd'))

lemma dep_edges_for_err (all_images : List ImageFSM) (img : ImageFSM) :
    ∀ deps edges d, d ∈ deps → img_from_name all_images d = none →
      ∃ d1, d1 ∈ deps ∧ img_from_name all_images d1 = none ∧
        dep_edges_for all_images img deps edges =
          Except.error ("Image " ++ d1 ++ " (dependency of " ++ img.label ++ ") not found") := by
  intro deps
  induction deps with
  | nil => intro edges d hd; simp at hd
  | cons d0 ds ih =>
    intro edges d hd hnone
    cases hres : img_from_name all_images d0 with
    | none =>
      exact ⟨d0, List.mem_cons_self d0 ds, hres, by rw [dep_edges_for, hres]⟩
    | some b =>
      rcases List.mem_cons.mp hd with rfl | hd'
      · rw [hres] at hnone
        exact absurd hnone (by simp)
      · obtain ⟨d1, hd1, hn1, heq⟩ := ih (edges ++ [(b, img)]) d hd' hnone
        exact ⟨d1, List.mem_cons_of_mem d0 hd1, hn1, by rw [dep_edges_for, hres]; exact heq⟩

lemma build_dependencies_loop_err (all_images : List ImageFSM) :
    ∀ rest edges img d, img ∈ rest → d ∈ img.depends →
      img_from_name all_images d = none →
      ∃ i1 d1, i1 ∈ rest ∧ d1 ∈ i1.depends ∧ img_from_name all_images d1 = none ∧
        build_dependencies_loop all_images rest edges =
          Except.error ("Image " ++ d1 ++ " (dependency of " ++ i1.label ++ ") not found") := by
  intro rest
  induction rest with
  | nil => intro edges img d h; simp at h
  | cons i0 rest ih =>
    intro edges img d himg hd hnone
    by_cases hbad : ∃ d0 ∈ i0.depends, img_from_name all_images d0 = none
    · obtain ⟨d0, hd0, hn0⟩ := hbad
      obtain ⟨d1, hd1, hn1, heq⟩ := dep_edges_for_err all_images i0 i0.depends edges d0 hd0 hn0
      refine ⟨i0, d1, List.mem_cons_self i0 rest, hd1, hn1, ?_⟩
      rw [build_dependencies_loop, heq]
    · push_neg at hbad
      have hall : ∀ d0 ∈ i0.depends, ∃ b, img_from_name all_images d0 = some b := by
        intro d0 hd0
        cases hres : img_from_name all_images d0 with
        | none => exact absurd hres (hbad d0 hd0)
        | some b => exact ⟨b, rfl⟩
      obtain ⟨out, hout⟩ := dep_edges_for_ok all_images i0 i0.depends edges hall
      rcases List.mem_cons.mp himg with rfl | himg'
      · exact absurd hnone (hbad d hd)
      · obtain ⟨i1, d1, hi1, hd1, hn1, heq⟩ := ih out img d himg' hd hnone
        exact ⟨i1, d1, List.mem_cons_of_mem i0 hi1, hd1, hn1, by
          rw [build_dependencies_loop, hout]
          exact heq⟩

end DockerBuilder

/-- C7: an unresolved declared dependency name (or one resolving to a
record not in `to_build` state) is silently skipped by build-chain
construction, which still succeeds on an acyclic registry and never puts a
record of that name (resp. that record) in the chain; the same unresolved
name makes `_build_dependencies` — and hence `images_to_update` — fail
with an error naming the missing dependency and its dependent. -/
theorem claim_C7_unresolved_dependency
    (all_images : List ImageFSM) (glob : Option (String → Bool)) (rank : ImageFSM → Nat)
    (img : ImageFSM) (d : String)
    (hr : DockerBuilder.rank_ok all_images rank)
    (himg : img ∈ all_images) (hd : d ∈ img.depends) :
    (DockerBuilder.img_from_name all_images d = none →
      (∃ fuel c, DockerBuilder.build_chain glob all_images fuel = Except.ok c ∧
        ∀ x ∈ c, x.short_name ≠ d) ∧
      (∃ i1 d1, i1 ∈ all_images ∧ d1 ∈ i1.depends ∧
        DockerBuilder.img_from_name all_images d1 = none ∧
        DockerBuilder.build_dependencies all_images =
          Except.error ("Image " ++ d1 ++ " (dependency of " ++ i1.label ++ ") not found") ∧
        (∀ fuel, DockerBuilder.images_to_update glob all_images fuel =
          Except.error ("Image " ++ d1 ++ " (dependency of " ++ i1.label ++ ") not found")))) ∧
    (∀ b, DockerBuilder.img_from_name all_images d = some b →
      b.state ≠ ImageState.to_build →
      ∃ fuel c, DockerBuilder.build_chain glob all_images fuel = Except.ok c ∧ b ∉ c) := by
  constructor
  · intro hnone
    constructor
    · obtain ⟨fuel, c, heq, hmem, hall, hndc, hcc⟩ :=
        DockerBuilder.build_chain_spec all_images glob rank hr
      refine ⟨fuel, c, heq, ?_⟩
      intro x hx
      have hxmem : x ∈ all_images := (hall x hx).1
      have := List.find?_eq_none.mp hnone x hxmem
      simpa using this
    · obtain ⟨i1, d1, hi1, hd1, hn1, heq⟩ :=
        DockerBuilder.build_dependencies_loop_err all_images all_images [] img d himg hd hnone
      refine ⟨i1, d1, hi1, hd1, hn1, heq, ?_⟩
      intro fuel
      unfold DockerBuilder.images_to_update
      rw [show DockerBuilder.build_dependencies all_images = _ from heq]
  · intro b hb hbst
    obtain ⟨fuel, c, heq, hmem, hall, hndc, hcc⟩ :=
      DockerBuilder.build_chain_spec all_images glob rank hr
    exact ⟨fuel, c, heq, fun hbc => hbst (hall b hbc).2⟩

/-- Witness for C7: the one-image registry with a dangling dependency. -/
theorem claim_C7_witness :
    DockerBuilder.build_dependencies [wit_c7] =
      Except.error ("Image " ++ "a" ++ " (dependency of " ++ "b:1.0" ++ ") not found") ∧
    (∃ fuel c, DockerBuilder.build_chain none [wit_c7] fuel = Except.ok c ∧
      ∀ x ∈ c, x.short_name ≠ "a") := by
  have h := (claim_C7_unresolved_dependency [wit_c7] none (fun _ => 0) wit_c7 "a"
      (by decide) (by decide) (by decide)).1 rfl
  refine ⟨?_, h.1⟩
  obtain ⟨i1, d1, hi1, hd1, hn1, heq, -⟩ := h.2
  have hi : i1 = wit_c7 := by simpa using hi1
  subst hi
  have hdd : d1 = "a" := by simpa [wit_c7] using hd1
  subst hdd
  exact heq

namespace DockerBuilder

lemma verify_pass_short_name (verify_ok : String → Bool) (i : ImageFSM) :
    (verify_pass verify_ok i).short_name = i.short_name := by
  unfold verify_pass
  split_ifs <;> rfl

end DockerBuilder

/-- C5: `DockerBuilder.publish` is a no-op (no state change, nothing
yielded, hence no push) whenever username or password is falsy — even for
`verified` records; with a configured registry and truthy credentials it
verifies every `built` record first and then publishes (and yields) every
record that is `verified` after that verification pass. -/
theorem claim_C5_publish_gating (config : Config) (verify_ok publish_ok : String → Bool)
    (all_images : List ImageFSM)
    (hnd : (all_images.map ImageFSM.short_name).Nodup) :
    ((truthy config.username && truthy config.password) = false →
      DockerBuilder.publish config verify_ok publish_ok all_images = (all_images, [])) ∧
    (∀ r, config.registry = some r → truthy config.username = true →
      truthy config.password = true →
      ∀ i ∈ all_images,
        ((i.state = ImageState.built ∧ verify_ok i.short_name = true) →
          { i with state := ImageState.verified } ∈
              (DockerBuilder.publish config verify_ok publish_ok all_images).2 ∧
            { i with state := if publish_ok i.short_name then ImageState.published
                else ImageState.error } ∈
              (DockerBuilder.publish config verify_ok publish_ok all_images).1) ∧
        ((i.state = ImageState.built ∧ verify_ok i.short_name = false) →
          { i with state := ImageState.error } ∈
              (DockerBuilder.publish config verify_ok publish_ok all_images).1 ∧
            ∀ j ∈ (DockerBuilder.publish config verify_ok publish_ok all_images).2,
              j.short_name ≠ i.short_name) ∧
        (i.state = ImageState.verified →
          i ∈ (DockerBuilder.publish config verify_ok publish_ok all_images).2 ∧
            { i with state := if publish_ok i.short_name then ImageState.published
                else ImageState.error } ∈
              (DockerBuilder.publish config verify_ok publish_ok all_images).1) ∧
        ((i.state ≠ ImageState.built ∧ i.state ≠ ImageState.verified ∧
            i.state ≠ ImageState.published) →
          i ∈ (DockerBuilder.publish config verify_ok publish_ok all_images).1 ∧
            ∀ j ∈ (DockerBuilder.publish config verify_ok publish_ok all_images).2,
              j.short_name ≠ i.short_name)) := by
  constructor
  · intro hcred
    unfold DockerBuilder.publish
    cases hreg : config.registry <;> simp [hreg, hcred]
  · intro r hreg hu hp i hi
    have hP : DockerBuilder.publish config verify_ok publish_ok all_images =
        ((all_images.map (DockerBuilder.verify_pass verify_ok)).map
            (DockerBuilder.publish_pass publish_ok),
         (all_images.map (DockerBuilder.verify_pass verify_ok)).filter
            (fun img => img.state = ImageState.verified)) := by
      unfold DockerBuilder.publish
      rw [hreg]
      simp [hu, hp]
    have hnotyield : ∀ st, DockerBuilder.verify_pass verify_ok i =
          { i with state := st } → st ≠ ImageState.verified →
        ∀ j ∈ (DockerBuilder.publish config verify_ok publish_ok all_images).2,
          j.short_name ≠ i.short_name := by
      intro st hvp hst j hj
      rw [hP] at hj
      simp only [List.mem_filter] at hj
      obtain ⟨hj1, hj2⟩ := hj
      rw [List.mem_map] at hj1
      obtain ⟨i0, hi0, rfl⟩ := hj1
      rw [DockerBuilder.verify_pass_short_name]
      intro hname
      have hii : i0 = i := List.inj_on_of_nodup_map hnd hi0 hi hname
      subst hii
      rw [hvp] at hj2
      simp at hj2
      exact hst hj2
    refine ⟨?_, ?_, ?_, ?_⟩
    · rintro ⟨hst, hv⟩
      have hvp : DockerBuilder.verify_pass verify_ok i = { i with state := ImageState.verified } := by
        simp [DockerBuilder.verify_pass, hst, hv]
      constructor
      · rw [hP]
        refine List.mem_filter.mpr ⟨?_, by simp⟩
        exact hvp ▸ List.mem_map_of_mem _ hi
      · rw [hP]
        have h1 : { i with state := ImageState.verified } ∈
            all_images.map (DockerBuilder.verify_pass verify_ok) :=
          hvp ▸ List.mem_map_of_mem _ hi
        have h2 : DockerBuilder.publish_pass publish_ok { i with state := ImageState.verified } =
            { i with state := if publish_ok i.short_name then ImageState.published
                else ImageState.error } := by
          simp only [DockerBuilder.publish_pass]
          split_ifs <;> simp_all
        exact h2 ▸ List.mem_map_of_mem _ h1
    · rintro ⟨hst, hv⟩
      have hvp : DockerBuilder.verify_pass verify_ok i = { i with state := ImageState.error } := by
        simp [DockerBuilder.verify_pass, hst, hv]
      constructor
      · rw [hP]
        have h1 : { i with state := ImageState.error } ∈
            all_images.map (DockerBuilder.verify_pass verify_ok) :=
          hvp ▸ List.mem_map_of_mem _ hi
        have h2 : DockerBuilder.publish_pass publish_ok { i with state := ImageState.error } =
            { i with state := ImageState.error } := by
          simp [DockerBuilder.publish_pass]
        exact h2 ▸ List.mem_map_of_mem _ h1
      · exact hnotyield ImageState.error hvp (by simp)
    · intro hst
      have hvp : DockerBuilder.verify_pass verify_ok i = i := by
        simp [DockerBuilder.verify_pass, hst]
      constructor
      · rw [hP]
        refine List.mem_filter.mpr ⟨?_, by simp [hst]⟩
        exact hvp ▸ List.mem_map_of_mem _ hi
      · rw [hP]
        have h1 : i ∈ all_images.map (DockerBuilder.verify_pass verify_ok) :=
          hvp ▸ List.mem_map_of_mem _ hi
        have h2 : DockerBuilder.publish_pass publish_ok i =
            { i with state := if publish_ok i.short_name then ImageState.published
                else ImageState.error } := by
          unfold DockerBuilder.publish_pass
          rw [if_pos hst]
          split_ifs <;> rfl
        exact h2 ▸ List.mem_map_of_mem _ h1
    · rintro ⟨hst1, hst2, hst3⟩
      have hvp : DockerBuilder.verify_pass verify_ok i = i := by
        simp [DockerBuilder.verify_pass, hst1]
      constructor
      · rw [hP]
        have h1 : i ∈ all_images.map (DockerBuilder.verify_pass verify_ok) :=
          hvp ▸ List.mem_map_of_mem _ hi
        have h2 : DockerBuilder.publish_pass publish_ok i = i := by
          simp [DockerBuilder.publish_pass, hst2]
        exact h2 ▸ List.mem_map_of_mem _ h1
      · exact hnotyield i.state (by simp [hvp]) hst2

/-- Witness for C5: with full credentials a built record is verified and
yielded for publication. -/
theorem claim_C5_witness :
    ({ short_name := "x", label := "x:1", depends := [], state := ImageState.verified } : ImageFSM) ∈
      (DockerBuilder.publish
        { registry := some "reg", username := some "u", password := some "p" }
        (fun _ => true) (fun _ => true)
        [{ short_name := "x", label := "x:1", depends := [], state := ImageState.built }]).2 := by
  have h := (claim_C5_publish_gating
      { registry := some "reg", username := some "u", password := some "p" }
      (fun _ => true) (fun _ => true)
      [{ short_name := "x", label := "x:1", depends := [], state := ImageState.built }]
      (by decide)).2 "reg" rfl (by decide) (by decide)
      { short_name := "x", label := "x:1", depends := [], state := ImageState.built }
      (by decide)
  exact (h.1 ⟨rfl, rfl⟩).1

namespace DockerBuilder

lemma build_loop_no_pull (pull_ok build_ok verify_ok : String → Bool) :
    ∀ names all_images,
      (build_loop false pull_ok build_ok verify_ok all_images names).2 = [] := by
  intro names
  induction names with
  | nil => intro all_images; rw [build_loop]
  | cons n rest ih =>
    intro all_images
    rw [build_loop]
    simp [ih]

end DockerBuilder

/-- C10: with no registry configured the effective pull flag is `false`
regardless of the requested one, and consequently a successful build run
performs no pull at all (empty pull log: no base-image refresh, no
dependency pull). -/
theorem claim_C10_no_registry_forces_no_pull (config : Config) (hreg : config.registry = none)
    (pull_arg : Bool) (pull_ok build_ok verify_ok : String → Bool)
    (base_images : List String) (glob : Option (String → Bool))
    (all_images : List ImageFSM) (fuel : Nat) :
    DockerBuilder.effective_pull config pull_arg = false ∧
    (∀ final log,
      DockerBuilder.build config pull_arg pull_ok build_ok verify_ok base_images glob
          all_images fuel = Except.ok (final, log) →
      log = []) := by
  have hep : DockerBuilder.effective_pull config pull_arg = false := by
    simp [DockerBuilder.effective_pull, hreg]
  refine ⟨hep, ?_⟩
  intro final log hok
  unfold DockerBuilder.build at hok
  rw [hep] at hok
  cases hchain : DockerBuilder.build_chain glob all_images fuel with
  | error e =>
    rw [hchain] at hok
    simp at hok
  | ok chain =>
    rw [hchain] at hok
    simp only [Bool.false_eq_true, if_false, List.nil_append, Except.ok.injEq,
      Prod.mk.injEq] at hok
    obtain ⟨-, h2⟩ := hok
    rw [← h2]
    exact DockerBuilder.build_loop_no_pull pull_ok build_ok verify_ok _ _

/-- Witness for C10: a registry-less configuration with `pull=True`. -/
theorem claim_C10_witness :
    ({ registry := none, username := none, password := none } : Config).registry = none ∧
    DockerBuilder.effective_pull
      { registry := none, username := none, password := none } true = false :=
  ⟨rfl,
    (claim_C10_no_registry_forces_no_pull
      { registry := none, username := none, password := none } rfl true
      (fun _ => true) (fun _ => true) (fun _ => true) [] none [] 0).1⟩
